import Mathlib

/-!
Verification development for the MobAI dynamic planning-and-execution loop.

The definitions below are a shallow embedding of the Python sources:
  * `src/mobile_use/domain/services/agents/dynamic_planner.py`
    (`UIContext._build_indexed_elements`, `UIContext.get_element_by_index`,
     `CompletedStep`, `NextStep`, `PlanningResult`,
     `DynamicTaskPlanner.plan_next_step` / `_fallback_plan`),
  * `src/mobile_use/domain/services/agents/modular_orchestrator.py`
    (`ModularOrchestrator.execute_task` and its helper methods),
  * `src/mobile_use/domain/services/agents/action_executor.py`
    (`ActionExecutorAgent._execute_tap` / `_execute_swipe` / `_execute_input`
     / `_execute_scroll` / `_execute_press_key` and the dispatch),
  * `src/mobile_use/domain/value_objects/point.py` (`Point.__post_init__`).

External effects are modelled as oracles: the device world supplies, per loop
iteration, the captured UI elements, the (already parsed) planner decision and
the success/error outcome of each executed step.  Python dictionaries are
modelled as records whose fields are exactly the keys the code reads; Python
string operations are modelled on character lists.  Timing (sleeps, durations)
is not part of the state; the 5-second backoff of the orchestrator is recorded
as a boolean flag on the loop-continuation outcome.
-/

namespace MobAI

/-- Python `str.lower`, applied per character. -/
def lowerStr (s : String) : String := String.mk (s.data.map Char.toLower)

/-- Python `str.upper`, applied per character. -/
def upperStr (s : String) : String := String.mk (s.data.map Char.toUpper)

/-- Python `str.strip`: whitespace removed from both ends. -/
def pyStrip (s : String) : String :=
  String.mk (((s.data.dropWhile Char.isWhitespace).reverse.dropWhile Char.isWhitespace).reverse)

/-- Prefix test on character lists. -/
def charsPrefix : List Char → List Char → Bool
  | [], _ => true
  | _ :: _, [] => false
  | a :: as, b :: bs => a == b && charsPrefix as bs

/-- Substring occurrence test on character lists. -/
def charsSub (n : List Char) : List Char → Bool
  | [] => n.isEmpty
  | b :: bs => charsPrefix n (b :: bs) || charsSub n bs

/-- Python substring containment `needle in hay`. -/
def containsSub (needle hay : String) : Bool := charsSub needle.data hay.data

/-- Python `"; ".join(l)`. -/
def joinSemicolon : List String → String
  | [] => ""
  | [x] => x
  | x :: rest => x ++ "; " ++ joinSemicolon rest

/-! ### UI snapshot model (`dynamic_planner.UIContext`) -/

/-- One UI element record, with exactly the dictionary keys the code reads.
`classAlt` models the `"class"` key used as fallback for `"class_name"`. -/
structure UIElem where
  text : String := ""
  content_desc : String := ""
  clickable : Bool := false
  scrollable : Bool := false
  class_name : String := ""
  classAlt : String := ""
  hint : String := ""
  center : Int × Int := (0, 0)
deriving DecidableEq

/-- Effective lowered class name: `e.get('class_name','').lower() or e.get('class','').lower()`. -/
def effClass (e : UIElem) : String :=
  let a := lowerStr e.class_name
  if a = "" then lowerStr e.classAlt else a

/-- Input-field test: `'edittext' in class_name or 'input' in class_name`. -/
def isInputElem (e : UIElem) : Bool :=
  containsSub "edittext" (effClass e) || containsSub "input" (effClass e)

/-- `name = text or desc` after stripping, as in `_build_indexed_elements`. -/
def rawName (e : UIElem) : String :=
  let t := pyStrip e.text
  if t = "" then pyStrip e.content_desc else t

/-- Long-name truncation: names longer than 30 characters become
`first 15 ++ "..." ++ last 10`. -/
def truncName (s : String) : String :=
  if 30 < s.data.length then
    String.mk (s.data.take 15) ++ "..." ++ String.mk (s.data.drop (s.data.length - 10))
  else s

/-- The base name computed for an element at running index `idx`:
truncated `text or desc`, falling back for nameless input fields to the
stripped hint or the synthesized `[输入框{idx}]` label. -/
def nameAt (e : UIElem) (idx : Nat) : String :=
  let base := truncName (rawName e)
  if base = "" ∧ isInputElem e then
    let h := pyStrip e.hint
    if h = "" then "[输入框" ++ toString idx ++ "]" else h
  else base

/-- The `should_include` test of `_build_indexed_elements`, at running index `idx`. -/
def shouldIncludeAt (e : UIElem) (idx : Nat) (clickableOnly : Bool) : Bool :=
  let n := nameAt e idx
  if clickableOnly then n ≠ "" && (e.clickable || isInputElem e) else n ≠ ""

/-- Index-free characterization of the inclusion test (the synthesized input
label is never empty, so inclusion does not depend on the running index). -/
def includeElem (e : UIElem) (clickableOnly : Bool) : Bool :=
  let hasName := truncName (rawName e) ≠ "" || isInputElem e
  if clickableOnly then hasName && (e.clickable || isInputElem e) else hasName

/-- The `@(x,y)` disambiguation suffix appended to colliding names. -/
def coordSuffix (e : UIElem) : String :=
  "@(" ++ toString e.center.1 ++ "," ++ toString e.center.2 ++ ")"

/-- Worker of `_build_indexed_elements`: walks the elements with the running
index `idx` and the multiset of base names already used (`seen` plays the role
of the keys of `name_counter`). -/
def buildIndexedElementsGo (clickableOnly : Bool) :
    List UIElem → Nat → List String → List (Nat × String × UIElem)
  | [], _, _ => []
  | e :: rest, idx, seen =>
    let n := nameAt e idx
    if shouldIncludeAt e idx clickableOnly then
      let disp := if seen.contains n then n ++ coordSuffix e else n
      (idx, disp, e) :: buildIndexedElementsGo clickableOnly rest (idx + 1) (n :: seen)
    else
      buildIndexedElementsGo clickableOnly rest idx seen

/-- `UIContext._build_indexed_elements(clickable_only)`. -/
def buildIndexedElements (elements : List UIElem) (clickableOnly : Bool) :
    List (Nat × String × UIElem) :=
  buildIndexedElementsGo clickableOnly elements 1 []

/-- `UIContext.get_all_elements()`: display names of the unified (all-element) index. -/
def getAllElements (elements : List UIElem) : List String :=
  (buildIndexedElements elements false).map (fun t => t.2.1)

/-- `UIContext.get_element_by_index(index)`: unified-index lookup that returns
`none` out of range (the `isinstance(index, int)` guard is expressed by the
`Int` type of the argument). -/
def getElementByIndex (elements : List UIElem) (index : Int) : Option UIElem :=
  let allIndexed := buildIndexedElements elements false
  if 1 ≤ index ∧ index ≤ (allIndexed.length : Int) then
    (allIndexed.get? (index - 1).toNat).map (fun t => t.2.2)
  else none

/-- Qualifying predicate written from the specification's words (section 4.1
and the claim): an element qualifies if it is clickable OR scrollable OR an
input-class element OR carries non-empty text/label.  This definition follows
the spec, not the code; it exists only to be compared with `includeElem`. -/
def qualifiesSpec (e : UIElem) : Bool :=
  e.clickable || e.scrollable || isInputElem e ||
    (pyStrip e.text ≠ "" || pyStrip e.content_desc ≠ "")

/-! ### Planner data model (`dynamic_planner`) -/

/-- The parameter dictionary of a step, with exactly the keys the code reads. -/
structure Params where
  x : Option Int := none
  y : Option Int := none
  direction : Option String := none
  text : Option String := none
  content : Option String := none
  key : Option String := none
  durationMs : Option Int := none
deriving DecidableEq

/-- `dynamic_planner.NextStep`. -/
structure NextStep where
  action : String
  target : Option String := none
  targetIndex : Option Int := none
  params : Params := {}
  description : String := ""
deriving DecidableEq

/-- `dynamic_planner.CompletedStep`. -/
structure CompletedStep where
  action : String
  target : Option String := none
  description : String := ""
  success : Bool := true
  error : Option String := none
  parameters : Params := {}
  uiBefore : List String := []
  uiAfter : List String := []
  uiChanged : Bool := true
  retryCount : Nat := 0
deriving DecidableEq

/-- The default planner confidence 0.8 (the Python float is modelled exactly
as the rational 4/5). -/
def conf08 : Rat := ⟨4, 5, by decide, by decide⟩

/-- `dynamic_planner.PlanningResult`. -/
structure PlanningResult where
  nextStep : Option NextStep := none
  nextSteps : Option (List NextStep) := none
  taskComplete : Bool := false
  reason : String := ""
  confidence : Rat := conf08
deriving DecidableEq

/-- `PlanningResult.has_batch_steps`. -/
def PlanningResult.hasBatchSteps (p : PlanningResult) : Bool :=
  match p.nextSteps with
  | some l => decide (0 < l.length)
  | none => false

/-- `PlanningResult.get_all_steps`. -/
def PlanningResult.getAllSteps (p : PlanningResult) : List NextStep :=
  if p.hasBatchSteps then p.nextSteps.getD []
  else
    match p.nextStep with
    | some s => [s]
    | none => []

/-- `DynamicTaskPlanner._fallback_plan`: the no-op decision returned when the
LLM call raises (rate limit etc.). -/
def fallbackPlan : PlanningResult :=
  { nextStep := none
    nextSteps := none
    taskComplete := false
    reason := "LLM调用失败（可能是速率限制），等待重试"
    confidence := 0 }

/-- Failure handling of `DynamicTaskPlanner.plan_next_step`: the LLM transport
outcome is an oracle; a raised exception (`Except.error`) yields the fallback
plan, a successful call yields the parsed planning result carried by `.ok`. -/
def planNextStep (llmOutcome : Except String PlanningResult) : PlanningResult :=
  match llmOutcome with
  | .error _ => fallbackPlan
  | .ok r => r

/-! ### Point and the action executor (`point.py`, `action_executor.py`) -/

/-- `value_objects.point.Point` (the raw coordinate pair). -/
structure Point where
  x : Int
  y : Int
deriving DecidableEq

/-- `Point.__post_init__`: construction fails (raises `ValueError`) on a
negative coordinate; `none` models the raised exception. -/
def mkPoint (x y : Int) : Option Point :=
  if x < 0 ∨ y < 0 then none else some ⟨x, y⟩

/-- One call issued to the device controller. -/
inductive DeviceCall where
  | tap (p : Point)
  | swipe (start stop : Point) (durationMs : Int)
  | inputText (t : String)
  | pressKey (k : String)
deriving DecidableEq

/-- Observable outcome of executing one action: the classification the
orchestrator sees plus the list of device calls actually issued. A raised
`ValueError` from `Point` is caught at the `execute` boundary and becomes a
failure outcome with no device call. -/
structure ActionOutcome where
  success : Bool
  error : Option String := none
  needsRecovery : Bool := false
  calls : List DeviceCall := []
deriving DecidableEq

/-- Python truncation `int(h * (num/den))`: the source computes this through a
float product and `int()` truncation toward zero; the model uses exact
truncated rational division, which agrees in sign with the source for every
screen size. -/
def pyTruncFrac (h : Int) (num den : Int) : Int := Int.tdiv (num * h) den

/-- `ActionExecutorAgent._execute_tap`.  The element search
(`_find_element_by_target_async`, simple matching plus LLM fallback) is
abstracted as the function argument `find`; every theorem about this model
quantifies over all possible search functions. -/
def executeTapModel (find : String → List UIElem → Option UIElem)
    (target : Option String) (p : Params) (uiElems : List UIElem) : ActionOutcome :=
  if p.x.isSome ∧ p.y.isSome then
    match mkPoint (p.x.getD 0) (p.y.getD 0) with
    | none =>
      { success := false, error := some "Point coordinates must be non-negative" }
    | some pt => { success := true, calls := [.tap pt] }
  else if target.getD "" ≠ "" ∧ uiElems ≠ [] then
    match find (target.getD "") uiElems with
    | some element =>
      match mkPoint element.center.1 element.center.2 with
      | none =>
        { success := false, error := some "Point coordinates must be non-negative" }
      | some pt => { success := true, calls := [.tap pt] }
    | none =>
      { success := false
        error := some ("Could not find target: " ++ target.getD "None")
        needsRecovery := true }
  else
    { success := false
      error := some ("Could not find target: " ++
        (match target with | some t => t | none => "None"))
      needsRecovery := true }

/-- `ActionExecutorAgent._execute_swipe` with the screen-info defaults applied
by the caller (`width`, `height`). -/
def executeSwipeModel (p : Params) (width height : Int) : ActionOutcome :=
  let direction := p.direction.getD "down"
  let duration := p.durationMs.getD 500
  let cx := Int.fdiv width 2
  let cy := Int.fdiv height 2
  let pts : Option ((Int × Int) × (Int × Int)) :=
    if direction = "up" then some ((cx, pyTruncFrac height 7 10), (cx, pyTruncFrac height 3 10))
    else if direction = "down" then
      some ((cx, pyTruncFrac height 3 10), (cx, pyTruncFrac height 7 10))
    else if direction = "left" then
      some ((pyTruncFrac width 8 10, cy), (pyTruncFrac width 2 10, cy))
    else if direction = "right" then
      some ((pyTruncFrac width 2 10, cy), (pyTruncFrac width 8 10, cy))
    else none
  match pts with
  | none => { success := false, error := some ("Unknown direction: " ++ direction) }
  | some ((x1, y1), (x2, y2)) =>
    match mkPoint x1 y1, mkPoint x2 y2 with
    | some s, some e => { success := true, calls := [.swipe s e duration] }
    | _, _ =>
      { success := false, error := some "Point coordinates must be non-negative" }

/-- `ActionExecutorAgent._execute_input`. -/
def executeInputModel (p : Params) : ActionOutcome :=
  let t1 := p.text.getD ""
  let t2 := p.content.getD ""
  let text := if t1 ≠ "" then t1 else t2
  if text = "" then
    { success := false, error := some "No text provided in parameters", needsRecovery := true }
  else
    { success := true, calls := [.inputText text] }

/-- Key-name mapping of `_execute_press_key`. -/
def keyMap : List (String × String) :=
  [("ENTER", "ENTER"), ("BACK", "BACK"), ("HOME", "HOME"), ("MENU", "MENU"),
   ("RECENT", "RECENT"), ("RECENTS", "RECENT"), ("SEARCH", "SEARCH"),
   ("VOLUME_UP", "VOLUME_UP"), ("VOLUMEUP", "VOLUME_UP"),
   ("VOLUME_DOWN", "VOLUME_DOWN"), ("VOLUMEDOWN", "VOLUME_DOWN"),
   ("POWER", "POWER"), ("TAB", "TAB"), ("DELETE", "DEL"), ("BACKSPACE", "DEL"),
   ("DEL", "DEL"), ("UP", "UP"), ("DOWN", "DOWN"), ("LEFT", "LEFT"),
   ("RIGHT", "RIGHT"), ("CENTER", "CENTER")]

/-- `ActionExecutorAgent._execute_press_key`. -/
def executePressKeyModel (p : Params) : ActionOutcome :=
  let key := upperStr (p.key.getD "ENTER")
  let mapped := ((keyMap.find? (fun kv => kv.1 = key)).map (fun kv => kv.2)).getD key
  { success := true, calls := [.pressKey mapped] }

/-- `ActionExecutorAgent._execute_action` dispatch (plus the surrounding
try/except of `execute`, already folded into the branch outcomes). -/
def executeActionModel (find : String → List UIElem → Option UIElem)
    (action : String) (target : Option String) (p : Params)
    (width height : Int) (uiElems : List UIElem) : ActionOutcome :=
  if action = "tap" ∨ action = "click" then executeTapModel find target p uiElems
  else if action = "swipe" then executeSwipeModel p width height
  else if action = "input" then executeInputModel p
  else if action = "wait" then { success := true }
  else if action = "scroll" then
    executeSwipeModel { direction := some (p.direction.getD "down") } width height
  else if action = "back" then { success := true, calls := [.pressKey "BACK"] }
  else if action = "home" then { success := true, calls := [.pressKey "HOME"] }
  else if action = "press_key" then executePressKeyModel p
  else { success := false, error := some ("Unknown action: " ++ action) }

/-- Coordinates carried by a device call are non-negative. -/
def callNonneg : DeviceCall → Prop
  | .tap p => 0 ≤ p.x ∧ 0 ≤ p.y
  | .swipe s e _ => (0 ≤ s.x ∧ 0 ≤ s.y) ∧ (0 ≤ e.x ∧ 0 ≤ e.y)
  | .inputText _ => True
  | .pressKey _ => True

/-! ### Orchestrator helpers (`modular_orchestrator`) -/

/-- `ModularOrchestrator._count_consecutive_failures`, on the reversed ledger. -/
def failPrefixLen : List CompletedStep → Nat
  | [] => 0
  | s :: rest => if s.success then 0 else failPrefixLen rest + 1

/-- `ModularOrchestrator._count_consecutive_failures`. -/
def countConsecutiveFailures (l : List CompletedStep) : Nat := failPrefixLen l.reverse

/-- `ModularOrchestrator._count_consecutive_no_change`, on the reversed ledger. -/
def noChangePrefixLen : List CompletedStep → Nat
  | [] => 0
  | s :: rest => if s.success ∧ ¬s.uiChanged then noChangePrefixLen rest + 1 else 0

/-- `ModularOrchestrator._count_consecutive_no_change`. -/
def countConsecutiveNoChange (l : List CompletedStep) : Nat := noChangePrefixLen l.reverse

/-- The per-step reason string built by `_get_failure_reasons`. -/
def reasonStr (s : CompletedStep) : String :=
  let err := match s.error with
    | some e => if e = "" then "未知错误" else e
    | none => "未知错误"
  match s.target with
  | some t => if t ≠ "" then "[" ++ s.action ++ ":" ++ t ++ "] " ++ err
              else "[" ++ s.action ++ "] " ++ err
  | none => "[" ++ s.action ++ "] " ++ err

/-- Accumulating scan of `_get_failure_reasons` over the reversed ledger. -/
def collectFailures (cnt : Nat) : List CompletedStep → List String → List String
  | [], acc => acc
  | s :: rest, acc =>
    let acc2 := if ¬s.success ∧ acc.length < cnt then acc ++ [reasonStr s] else acc
    if cnt ≤ acc2.length then acc2 else collectFailures cnt rest acc2

/-- `ModularOrchestrator._get_failure_reasons`. -/
def getFailureReasons (l : List CompletedStep) (cnt : Nat) : String :=
  joinSemicolon (collectFailures cnt l.reverse []).reverse

/-- `ModularOrchestrator._get_opposite_direction`. -/
def getOppositeDirection (d : String) : String :=
  if d = "up" then "down"
  else if d = "down" then "up"
  else if d = "left" then "right"
  else if d = "right" then "left"
  else d

/-- `ModularOrchestrator._check_scroll_stuck`. -/
def checkScrollStuck (l : List CompletedStep) : Option String :=
  if l.length < 2 then none
  else
    let recent := (l.reverse.take 2).reverse
    let dirs := (recent.filter
        (fun s => s.action = "scroll" && s.success && !s.uiChanged)).map
      (fun s => s.parameters.direction.getD "")
    match dirs with
    | [d1, d2] => if d2 = d1 then some (getOppositeDirection d2) else none
    | _ => none

/-- Per-step direction fix of `execute_task` (the loop that rewrites the
direction of proposed scroll steps when `_check_scroll_stuck` fires). -/
def fixScrollStep (l : List CompletedStep) (s : NextStep) : NextStep :=
  if s.action = "scroll" then
    match checkScrollStuck l with
    | some rd =>
      if s.params.direction.getD "" ≠ rd then
        { s with params := { s.params with direction := some rd } }
      else s
    | none => s
  else s

/-- Character test of the `digit_pattern` used by `_should_convert_clicks_to_input`. -/
def isConvertChar (c : Char) : Bool := c.isDigit || c = '.' || c = '。'

/-- Character test of the extraction pattern `'0123456789.'` used by
`_extract_digits_from_clicks`. -/
def isExtractChar (c : Char) : Bool := c.isDigit || c = '.'

/-- `ModularOrchestrator._should_convert_clicks_to_input`. -/
def shouldConvertClicksToInput (steps : List NextStep) (uiElems : List UIElem) : Bool :=
  (steps.all fun s =>
    (s.action = "click" || s.action = "tap") && s.description.data.any isConvertChar) &&
  uiElems.any fun e =>
    containsSub "edittext" (effClass e) || containsSub "input" (effClass e)

/-- `ModularOrchestrator._extract_digits_from_clicks`: one character per step,
the first match of the extraction pattern in the description. -/
def extractDigitsFromClicks (steps : List NextStep) : String :=
  String.mk (steps.filterMap (fun s => s.description.data.find? isExtractChar))

/-- The replacement input step built by the smart conversion. -/
def mkInputStep (t : String) : NextStep :=
  { action := "input"
    target := none
    targetIndex := none
    params := { text := some t }
    description := "输入 " ++ t }

/-- `ModularOrchestrator._last_step_clicked_input`. -/
def lastStepClickedInput (l : List CompletedStep) : Bool :=
  match l.getLast? with
  | none => false
  | some last =>
    if last.action ≠ "tap" ∧ last.action ≠ "click" then false
    else
      let tgt := lowerStr (last.target.getD "")
      if containsSub "输入" tgt || containsSub "input" tgt ||
         containsSub "edit" tgt || containsSub "搜索" tgt then true
      else
        let desc := lowerStr last.description
        containsSub "输入框" desc || containsSub "搜索框" desc || containsSub "edittext" desc

/-- Keyword list of `_is_digit_clicks`. -/
def digitKeywords : List String := ["点击数字", "数字键", "按键", "密码", "pin"]

/-- `ModularOrchestrator._is_digit_clicks`. -/
def isDigitClicks (steps : List NextStep) : Bool :=
  if steps.isEmpty then false
  else steps.all fun s =>
    (s.action = "click" || s.action = "tap") &&
    (let desc := lowerStr s.description
     !(containsSub "第" desc && containsSub "元素" desc) &&
     !(containsSub "编号" desc) &&
     (digitKeywords.any (fun kw => containsSub kw desc) ||
      (decide (desc.data.length ≤ 10) && desc.data.any Char.isDigit)))

/-! ### Target-index resolution inside `execute_task` -/

/-- The element name used when a step resolved through `target_index`:
`element.get('text') or element.get('content_desc') or f"元素{index}"`. -/
def elemDisplayName (e : UIElem) (ti : Int) : String :=
  if e.text ≠ "" then e.text
  else if e.content_desc ≠ "" then e.content_desc
  else "元素" ++ toString ti

/-- Name cleaning of the auto-correction: remove `':'`, `'：'`, `' '`, lower. -/
def cleanStr (s : String) : String :=
  String.mk ((s.data.filter (fun c => c ≠ ':' ∧ c ≠ '：' ∧ c ≠ ' ')).map Char.toLower)

/-- Prefix keywords stripped from the cleaned target of the auto-correction. -/
def musicPrefixes : List String := ["单曲", "歌曲", "专辑", "视频", "音乐"]

/-- Strip the first matching music prefix from the cleaned target. -/
def stripMusicPrefix (s : String) : String :=
  match musicPrefixes.find? (fun p => charsPrefix p.data s.data) with
  | some p => String.mk (s.data.drop p.data.length)
  | none => s

/-- What follows the first `'：'` in a step description, stripped, if any;
this is `target_name_from_desc` of `execute_task`. -/
def extractTargetName (desc : String) : Option String :=
  if desc ≠ "" ∧ containsSub "：" desc then
    match desc.data.findIdx? (fun c => c = '：') with
    | some i => some (pyStrip (String.mk (desc.data.drop (i + 1))))
    | none => none
  else none

/-- The four-round scored matcher of the auto-correction; carries the current
`best_match_score` and matched `(index, element)`, breaking on an exact match. -/
def matchRound (tn tCleaned tKeywords : String) :
    List (Nat × String × UIElem) → Nat → Option (Nat × UIElem) → Nat × Option (Nat × UIElem)
  | [], best, m => (best, m)
  | (idx, name, elem) :: rest, best, m =>
    let nameCleaned := cleanStr name
    if tn = name ∨ tCleaned = nameCleaned then (100, some (idx, elem))
    else if containsSub tn name || containsSub name tn then
      if best < 80 then matchRound tn tCleaned tKeywords rest 80 (some (idx, elem))
      else matchRound tn tCleaned tKeywords rest best m
    else if containsSub tCleaned nameCleaned || containsSub nameCleaned tCleaned then
      if best < 70 then matchRound tn tCleaned tKeywords rest 70 (some (idx, elem))
      else matchRound tn tCleaned tKeywords rest best m
    else if tKeywords ≠ "" ∧ 1 < tKeywords.data.length ∧
        (containsSub tKeywords nameCleaned || containsSub nameCleaned tKeywords) then
      if best < 60 then matchRound tn tCleaned tKeywords rest 60 (some (idx, elem))
      else matchRound tn tCleaned tKeywords rest best m
    else matchRound tn tCleaned tKeywords rest best m

/-- Target-index resolution of `execute_task` (lines 209–321): for tap/click
steps carrying a `target_index`, look the element up, optionally auto-correct
the index from the description, and write the element center into the `x`/`y`
parameters and the element name into `target`.  All other steps pass through
unchanged (the explicit-coordinate `elif` only logs). -/
def resolveStep (uiElems : List UIElem) (s : NextStep) : NextStep :=
  match s.targetIndex with
  | some ti =>
    if s.action = "tap" ∨ s.action = "click" then
      match getElementByIndex uiElems ti with
      | some element =>
        let elemName := elemDisplayName element ti
        let corrected : Option (Nat × UIElem) :=
          match extractTargetName s.description with
          | some tn =>
            if tn ≠ "" ∧ ¬containsSub tn elemName then
              let tCleaned := cleanStr tn
              let tKeywords := stripMusicPrefix tCleaned
              let res := matchRound tn tCleaned tKeywords
                (buildIndexedElements uiElems false) 0 none
              if 60 ≤ res.1 then res.2 else none
            else none
          | none => none
        match corrected with
        | some (mIdx, mElem) =>
          { s with targetIndex := some (Int.ofNat mIdx)
                   params := { s.params with x := some mElem.center.1, y := some mElem.center.2 }
                   target := some (elemDisplayName mElem (Int.ofNat mIdx)) }
        | none =>
          { s with params := { s.params with x := some element.center.1, y := some element.center.2 }
                   target := some elemName }
      | none => s
    else s
  | none => s

/-! ### The execute_task loop -/

/-- `ExecutionState`. -/
inductive ExecutionState where
  | idle
  | running
  | completed
  | failed
deriving DecidableEq

/-- `TaskResult` (timing omitted: durations depend on the wall clock). -/
structure TaskResult where
  success : Bool
  task : String
  stepsExecuted : Nat := 0
  completedSteps : List CompletedStep := []
  error : Option String := none
  state : ExecutionState := .completed
deriving DecidableEq

/-- Loop state of `execute_task`: the step counter and the ledger. -/
structure LoopState where
  stepCount : Nat
  ledger : List CompletedStep
deriving DecidableEq

/-- Outcome of one loop iteration: either the loop returns a task result, or
it continues with a new state; `backoff` records whether the fixed 5-second
retry sleep was taken (LLM-failure path). -/
inductive IterOut where
  | ret (r : TaskResult)
  | cont (st : LoopState) (backoff : Bool)
deriving DecidableEq

/-- Environment of one loop iteration: what the external world supplies.
`execResults` gives, per executed step of the iteration (0-based), the success
flag and error string the action executor reports. -/
structure IterEnv where
  stop : Bool
  uiElems : List UIElem
  plan : PlanningResult
  execResults : Nat → Bool × Option String
  uiAfterElems : List UIElem

/-- Multiset equality of two name lists (Python `set(a) == set(b)`). -/
def setEqv (a b : List String) : Bool :=
  a.all (fun x => b.contains x) && b.all (fun x => a.contains x)

/-- The step list actually executed in one iteration: the planner's steps with
the two click→input smart conversions and the stuck-scroll direction fix
applied, in source order. -/
def iterSteps (e : IterEnv) (ledger : List CompletedStep) : List NextStep :=
  let s0 := e.plan.getAllSteps
  let s1 :=
    if e.plan.hasBatchSteps then
      if shouldConvertClicksToInput s0 e.uiElems then
        let t := extractDigitsFromClicks s0
        if t ≠ "" then [mkInputStep t] else s0
      else s0
    else s0
  let s2 :=
    if lastStepClickedInput ledger then
      if isDigitClicks s1 then
        let t := extractDigitsFromClicks s1
        if t ≠ "" then [mkInputStep t] else s1
      else s1
    else s1
  s2.map (fixScrollStep ledger)

/-- The execution loop over the steps of one iteration: resolve, execute
(outcome from the oracle), record; a batch is interrupted by the first
failure. -/
def execSteps (results : Nat → Bool × Option String) (uiElems : List UIElem)
    (uiBefore : List String) (isBatch : Bool) :
    List NextStep → Nat → List CompletedStep
  | [], _ => []
  | s :: rest, stepIdx =>
    let s2 := resolveStep uiElems s
    let r := results stepIdx
    let cs : CompletedStep :=
      { action := s2.action
        target := s2.target
        description := s2.description
        success := r.1
        error := if r.1 then none else r.2
        parameters := s2.params
        uiBefore := if stepIdx = 0 then uiBefore.take 20 else []
        uiAfter := []
        uiChanged := false }
    if ¬r.1 ∧ isBatch then [cs]
    else cs :: execSteps results uiElems uiBefore isBatch rest (stepIdx + 1)

/-- The post-batch update of `execute_task`: the most recently appended record
gets its `ui_after` list and `ui_changed` flag set. -/
def patchLast (l : List CompletedStep) (uiAfter : List String) (changed : Bool) :
    List CompletedStep :=
  match l.reverse with
  | [] => []
  | last :: rest => ({ last with uiAfter := uiAfter, uiChanged := changed } :: rest).reverse

/-- The records appended to the ledger by one iteration (before the patch). -/
def iterAppended (e : IterEnv) (st : LoopState) : List CompletedStep :=
  execSteps e.execResults e.uiElems (getAllElements e.uiElems) e.plan.hasBatchSteps
    (iterSteps e st.ledger) 0

/-- Successful task result built after the loop breaks on `task_complete`. -/
def successResult (task : String) (l : List CompletedStep) : TaskResult :=
  { success := true, task := task, stepsExecuted := l.length, completedSteps := l,
    error := none, state := .completed }

/-- Failed result returned when the stop predicate fires. -/
def stoppedResult (task : String) (l : List CompletedStep) : TaskResult :=
  { success := false, task := task, stepsExecuted := l.length, completedSteps := l,
    error := some "用户停止了任务", state := .failed }

/-- The failure-streak error message of `execute_task`. -/
def failStreakMsg (l : List CompletedStep) : String :=
  "连续" ++ toString (countConsecutiveFailures l) ++
    "次操作失败，任务终止。失败原因: " ++ getFailureReasons l 3

/-- Failed result returned on three consecutive step failures. -/
def failStreakResult (task : String) (l : List CompletedStep) : TaskResult :=
  { success := false, task := task, stepsExecuted := l.length, completedSteps := l,
    error := some (failStreakMsg l), state := .failed }

/-- Failed result returned when the step budget is exhausted. -/
def maxStepsResult (task : String) (maxSteps : Nat) (l : List CompletedStep) : TaskResult :=
  { success := false, task := task, stepsExecuted := l.length, completedSteps := l,
    error := some ("达到最大步数限制 (" ++ toString maxSteps ++ ")"), state := .failed }

/-- The body of one `execute_task` iteration, after the stop check: plan,
convert, fix, execute, record, patch, check the failure streak. -/
def iterBody (task : String) (e : IterEnv) (st : LoopState) : IterOut :=
  if e.plan.taskComplete then .ret (successResult task st.ledger)
  else if e.plan.getAllSteps.isEmpty then
    if e.plan.confidence = 0 then .cont ⟨st.stepCount + 1, st.ledger⟩ true
    else .cont ⟨st.stepCount + 1, st.ledger⟩ false
  else
    let appended := iterAppended e st
    let ledger1 := st.ledger ++ appended
    let uiBefore := getAllElements e.uiElems
    let uiAfter := getAllElements e.uiAfterElems
    let changed := !setEqv uiBefore uiAfter
    let ledger2 := patchLast ledger1 (uiAfter.take 20) changed
    if 3 ≤ countConsecutiveFailures ledger2 then .ret (failStreakResult task ledger2)
    else .cont ⟨st.stepCount + 1, ledger2⟩ false

/-- The ledger visible after an iteration outcome. -/
def ledgerAfter : IterOut → List CompletedStep
  | .ret r => r.completedSteps
  | .cont st _ => st.ledger

/-- The `while step_count < max_steps` loop of `execute_task`.  The fuel is
the remaining budget `max_steps - step_count`; every entered iteration
increments the counter by exactly one, so fuel 0 is exactly the budget-
exhausted exit. -/
def runFrom (task : String) (env : Nat → IterEnv) (maxSteps : Nat) :
    Nat → LoopState → TaskResult
  | 0, st => maxStepsResult task maxSteps st.ledger
  | fuel + 1, st =>
    let e := env st.stepCount
    if e.stop then stoppedResult task st.ledger
    else
      match iterBody task e st with
      | .ret r => r
      | .cont st2 _ => runFrom task env maxSteps fuel st2

/-- `ModularOrchestrator.execute_task`. -/
def execTask (task : String) (env : Nat → IterEnv) (maxSteps : Nat) : TaskResult :=
  runFrom task env maxSteps maxSteps ⟨0, []⟩

/-! ### Ledger-state traces (instrumentation of the mutation points) -/

/-- The successive ledger values produced by appending the given records one
by one to `base`. -/
def appendStates (base : List CompletedStep) : List CompletedStep → List (List CompletedStep)
  | [] => []
  | cs :: rest => (base ++ [cs]) :: appendStates (base ++ [cs]) rest

/-- The ledger states of one iteration, in order: one state per appended
record, then the state after the in-place `ui_after`/`ui_changed` update of
the most recent record.  Iterations that append nothing contribute nothing. -/
def iterTrace (e : IterEnv) (st : LoopState) : List (List CompletedStep) :=
  if e.plan.taskComplete then []
  else if e.plan.getAllSteps.isEmpty then []
  else
    let appended := iterAppended e st
    let ledger1 := st.ledger ++ appended
    let uiAfter := getAllElements e.uiAfterElems
    let changed := !setEqv (getAllElements e.uiElems) uiAfter
    appendStates st.ledger appended ++ [patchLast ledger1 (uiAfter.take 20) changed]

/-- The ledger states of a whole run, in order. -/
def runFromTrace (task : String) (env : Nat → IterEnv) :
    Nat → LoopState → List (List CompletedStep)
  | 0, _ => []
  | fuel + 1, st =>
    let e := env st.stepCount
    if e.stop then []
    else
      iterTrace e st ++
        match iterBody task e st with
        | .ret _ => []
        | .cont st2 _ => runFromTrace task env fuel st2

/-- One legal transition between successive ledger states: either one record
is appended at the end, or the last record's `ui_after`/`ui_changed` fields
are rewritten in place. -/
def ledgerStepRel (L L2 : List CompletedStep) : Prop :=
  (∃ cs, L2 = L ++ [cs]) ∨
  (∃ init cs ua ch, L = init ++ [cs] ∧
    L2 = init ++ [{ cs with uiAfter := ua, uiChanged := ch }])




/-- The patched ledger produced by one main-path iteration. -/
def iterLedger2 (e : IterEnv) (st : LoopState) : List CompletedStep :=
  patchLast (st.ledger ++ iterAppended e st)
    ((getAllElements e.uiAfterElems).take 20)
    (!setEqv (getAllElements e.uiElems) (getAllElements e.uiAfterElems))


/-- Formalization of the claim's "single-digit tap/click proposal with no
element-index phrasing": the proposal is a click or tap, its description holds
exactly one extraction-pattern character, that character is a digit, and the
description carries none of the index phrasings that `_is_digit_clicks`
excludes.  This predicate renders the claim's precondition; it is not code. -/
def digitStepRel (s : NextStep) (c : Char) : Prop :=
  (s.action = "click" ∨ s.action = "tap") ∧
  s.description.data.filter isExtractChar = [c] ∧ c.isDigit = true ∧
  ¬(containsSub "第" (lowerStr s.description) = true ∧
    containsSub "元素" (lowerStr s.description) = true) ∧
  containsSub "编号" (lowerStr s.description) = false

/-! ### Concrete instances used by counterexamples and witnesses -/

/-- A clickable element labelled "A" at the default center. -/
def cexA : UIElem := { text := "A", clickable := true }

/-- A scrollable element with no text, label or input class. -/
def cexScroll : UIElem := { scrollable := true }

/-- Iteration environment in which the LLM call fails: the planner returns
the fallback plan. -/
def c3Env : IterEnv :=
  { stop := false, uiElems := [], plan := fallbackPlan,
    execResults := fun _ => (true, none), uiAfterElems := [] }

/-- A single-step plan proposing a `wait` action. -/
def waitPlan : PlanningResult := { nextStep := some { action := "wait" } }

/-- Environment in which every executed step fails with the error "boom". -/
def envFail : IterEnv :=
  { stop := false, uiElems := [], plan := waitPlan,
    execResults := fun _ => (false, some "boom"), uiAfterElems := [] }

/-- The ledger record produced by a failed `wait` step under `envFail`. -/
def csBoom : CompletedStep :=
  { action := "wait", target := none, description := "", success := false,
    error := some "boom", parameters := {}, uiBefore := [], uiAfter := [],
    uiChanged := false }

/-- A recorded successful up-scroll that left the UI unchanged. -/
def stuckStep : CompletedStep :=
  { action := "scroll", target := none, description := "", success := true,
    error := none, parameters := { direction := some "up" }, uiBefore := [],
    uiAfter := [], uiChanged := false }

/-- A plan proposing one more up-scroll. -/
def scrollPlan : PlanningResult :=
  { nextStep := some { action := "scroll", params := { direction := some "up" } } }

/-- Environment for the stuck-scroll scenario. -/
def envScroll : IterEnv :=
  { stop := false, uiElems := [], plan := scrollPlan,
    execResults := fun _ => (true, none), uiAfterElems := [] }

/-- The corrected scroll record appended under `envScroll` after two stuck
up-scrolls: its direction has been flipped to "down". -/
def csScrollDown : CompletedStep :=
  { action := "scroll", target := none, description := "", success := true,
    error := none, parameters := { direction := some "down" }, uiBefore := [],
    uiAfter := [], uiChanged := false }

/-- A proposed click on the digit `d`. -/
def digitStep (d : String) : NextStep :=
  { action := "click", description := "点击数字" ++ d }

/-- A text-input-class element. -/
def editTextElem : UIElem := { class_name := "android.widget.EditText" }

/-- A batch plan of two single-digit clicks. -/
def digitPlan : PlanningResult := { nextSteps := some [digitStep "1", digitStep "2"] }

/-- Environment for the digit-batch scenario: the snapshot holds an input field. -/
def envDigits : IterEnv :=
  { stop := false, uiElems := [editTextElem], plan := digitPlan,
    execResults := fun _ => (true, none), uiAfterElems := [editTextElem] }

/-- Environment whose stop predicate is already true. -/
def envStop : IterEnv :=
  { stop := true, uiElems := [], plan := waitPlan,
    execResults := fun _ => (true, none), uiAfterElems := [] }

/-- Environment for the ledger-patch scenario: a successful `wait` step after
which the captured UI differs from the one before. -/
def envPatch : IterEnv :=
  { stop := false, uiElems := [], plan := waitPlan,
    execResults := fun _ => (true, none),
    uiAfterElems := [{ text := "B", clickable := true }] }

/-- The `wait` record as first appended under `envPatch`. -/
def csWaitPre : CompletedStep :=
  { action := "wait", target := none, description := "", success := true,
    error := none, parameters := {}, uiBefore := [], uiAfter := [],
    uiChanged := false }

/-- The same record after the in-place `ui_after`/`ui_changed` update. -/
def csWaitPost : CompletedStep :=
  { csWaitPre with uiAfter := ["B"], uiChanged := true }

/-- A clickable button at center (100, 200). -/
def btnElem : UIElem := { text := "Btn", clickable := true, center := (100, 200) }

/-- A click decision carrying both an explicit coordinate (5, 6) and target
index 1. -/
def tapBoth : NextStep :=
  { action := "click", targetIndex := some 1, params := { x := some 5, y := some 6 } }

/-! ## Helper lemmas -/

/-- The synthesized input label is never the empty string. -/
theorem inputLabel_ne_empty (idx : Nat) : ("[输入框" ++ toString idx ++ "]" : String) ≠ "" := by
  intro h
  have hlen : ("[输入框" ++ toString idx ++ "]" : String).length = 0 := by
    rw [h]; rfl
  have h4 : ("[输入框" : String).length = 4 := rfl
  have h1 : ("]" : String).length = 1 := rfl
  simp [String.length_append, h4, h1] at hlen

/-- Non-emptiness of the computed base name does not depend on the running index. -/
theorem nameAt_ne_bool (e : UIElem) (idx : Nat) :
    (decide (nameAt e idx ≠ "")) = (decide (truncName (rawName e) ≠ "") || isInputElem e) := by
  unfold nameAt
  by_cases hb : truncName (rawName e) = ""
  · by_cases hi : isInputElem e = true
    · simp only [hb, hi, and_true, if_true, if_pos rfl]
      by_cases hh : pyStrip e.hint = ""
      · simp [hh, inputLabel_ne_empty idx]
      · simp [hh]
    · have hi2 : isInputElem e = false := by simp_all
      simp [hb, hi2]
  · have h2 : ¬ (truncName (rawName e) = "" ∧ isInputElem e = true) := by
      intro h; exact hb h.1
    simp [h2, hb]

/-- The inclusion test of the builder agrees with its index-free form. -/
theorem shouldIncludeAt_eq (e : UIElem) (idx : Nat) (co : Bool) :
    shouldIncludeAt e idx co = includeElem e co := by
  unfold shouldIncludeAt includeElem
  cases co
  · show decide (nameAt e idx ≠ "") =
      (decide (truncName (rawName e) ≠ "") || isInputElem e)
    exact nameAt_ne_bool e idx
  · show (decide (nameAt e idx ≠ "") && (e.clickable || isInputElem e)) =
      ((decide (truncName (rawName e) ≠ "") || isInputElem e) && (e.clickable || isInputElem e))
    rw [nameAt_ne_bool]

/-- The assigned indices of the builder form the contiguous range starting at
`idx` whose length is the number of included elements. -/
theorem buildGo_map_fst (co : Bool) :
    ∀ (es : List UIElem) (idx : Nat) (seen : List String),
      (buildIndexedElementsGo co es idx seen).map (fun t => t.1) =
        List.range' idx (es.countP (fun e => includeElem e co)) := by
  intro es
  induction es with
  | nil => intro idx seen; simp [buildIndexedElementsGo]
  | cons e rest ih =>
    intro idx seen
    rw [buildIndexedElementsGo]
    simp only [List.countP_cons, shouldIncludeAt_eq]
    by_cases h : includeElem e co = true
    · simp only [h, if_true]
      rw [List.map_cons, ih, List.range'_succ]
    · have h2 : includeElem e co = false := by simp_all
      simp [h2, ih]

/-- Every display name produced by the builder is the element's base name,
possibly with the coordinate suffix appended. -/
theorem buildGo_disp (co : Bool) :
    ∀ (es : List UIElem) (idx : Nat) (seen : List String) t,
      t ∈ buildIndexedElementsGo co es idx seen →
        t.2.1 = nameAt t.2.2 t.1 ∨ t.2.1 = nameAt t.2.2 t.1 ++ coordSuffix t.2.2 := by
  intro es
  induction es with
  | nil => intro idx seen t h; simp [buildIndexedElementsGo] at h
  | cons e rest ih =>
    intro idx seen t h
    rw [buildIndexedElementsGo] at h
    by_cases hc : shouldIncludeAt e idx co = true
    · simp only [hc, if_true, List.mem_cons] at h
      rcases h with h | h
      · subst h
        by_cases hs : (seen.contains (nameAt e idx)) = true
        · right; simp only [hs, if_true]
        · have hs2 : (seen.contains (nameAt e idx)) = false := by simp_all
          left; simp only [hs2, Bool.false_eq_true, if_false]
      · exact ih _ _ t h
    · have hc2 : shouldIncludeAt e idx co = false := by simp_all
      simp only [hc2] at h
      exact ih _ _ t (by simpa using h)

/-- The unified index has at most as many entries as the specification's
qualifying predicate counts. -/
theorem buildLength_le_specCount (es : List UIElem) :
    (buildIndexedElements es false).length ≤ es.countP qualifiesSpec := by
  have hlen : (buildIndexedElements es false).length =
      es.countP (fun e => includeElem e false) := by
    have := congrArg List.length (buildGo_map_fst false es 1 [])
    simpa [buildIndexedElements] using this
  rw [hlen]
  apply List.countP_mono_left
  intro e _ h
  have h2 : (decide (truncName (rawName e) ≠ "") || isInputElem e) = true := h
  rw [Bool.or_eq_true] at h2
  unfold qualifiesSpec
  rcases h2 with h2 | h2
  · have h3 : truncName (rawName e) ≠ "" := by simpa using h2
    have hraw : rawName e ≠ "" := by
      intro h0
      rw [h0] at h3
      exact h3 rfl
    unfold rawName at hraw
    by_cases ht : pyStrip e.text = ""
    · simp only [ht, if_true] at hraw
      simp [hraw]
    · simp [ht]
  · simp [h2]


/-! ## Claim C1 -/

/-- Claim C1, counterexample: with three identical clickable elements labelled
"A" at the same center, the second and third display names are both
"A@(0,0)" — two entries of one result share a display name; and a scrollable
element with no text, label or input class qualifies under the claim's
predicate but gets no index, so N differs from the claimed count. -/
theorem C1_counterexample :
    (¬ ((buildIndexedElements [cexA, cexA, cexA] false).map (fun t => t.2.1)).Nodup) ∧
    (buildIndexedElements [cexScroll] false).length ≠ [cexScroll].countP qualifiesSpec := by
  decide

/-- Claim C1 (amended): for every snapshot and both values of clickableOnly,
the index builder returns entries whose indices are exactly the contiguous
range 1..N, where N is the number of elements passing the code's inclusion
filter (non-empty computed base name; in clickable-only mode additionally
clickable or input-class — scrollability is never consulted), and each entry's
display name is its computed base name, with the `@(x,y)` coordinate suffix
appended on collision with an earlier included element's base name; display
names are not guaranteed pairwise distinct (colliding elements sharing a
center collide verbatim). -/
theorem C1_amended (es : List UIElem) (co : Bool) :
    ((buildIndexedElements es co).map (fun t => t.1)) =
      List.range' 1 (es.countP (fun e => includeElem e co)) ∧
    ∀ t ∈ buildIndexedElements es co,
      t.2.1 = nameAt t.2.2 t.1 ∨ t.2.1 = nameAt t.2.2 t.1 ++ coordSuffix t.2.2 :=
  ⟨buildGo_map_fst co es 1 [], fun t h => buildGo_disp co es 1 [] t h⟩

/-- Witness for C1_amended at the one-element snapshot `[cexA]`. -/
theorem C1_amended_witness :
    ((buildIndexedElements [cexA] true).map (fun t => t.1)) = List.range' 1 1 ∧
    (((1 : Nat), "A", cexA).2.1 = nameAt cexA 1 ∨
      ((1 : Nat), "A", cexA).2.1 = nameAt cexA 1 ++ coordSuffix cexA) :=
  ⟨by
    have h := (C1_amended [cexA] true).1
    simpa using h,
   (C1_amended [cexA] true).2 ((1 : Nat), "A", cexA) (by decide)⟩

/-! ## Claim C2 -/

/-- Claim C2: for every snapshot and every integral index that is out of range
(below 1 or above the number of qualifying elements), `get_element_by_index`
returns `none` — it neither raises (the function is total) nor falls back to
element 1. -/
theorem C2_lookup_out_of_range (es : List UIElem) (i : Int)
    (h : i < 1 ∨ ((es.countP qualifiesSpec : Nat) : Int) < i) :
    getElementByIndex es i = none := by
  unfold getElementByIndex
  simp only []
  split
  · rename_i hcond
    exfalso
    obtain ⟨h1, h2⟩ := hcond
    rcases h with h | h
    · omega
    · have hlen : ((buildIndexedElements es false).length : Int) ≤
          ((es.countP qualifiesSpec : Nat) : Int) := by
        exact_mod_cast buildLength_le_specCount es
      omega
  · rfl

/-- Witness for C2 at the empty snapshot with the hallucinated index 2. -/
theorem C2_lookup_witness : getElementByIndex [] 2 = none :=
  C2_lookup_out_of_range [] 2 (Or.inr (by decide))

/-! ## Executor helper lemmas -/

/-- A successfully constructed point has non-negative coordinates. -/
theorem mkPoint_nonneg (x y : Int) (pt : Point) (h : mkPoint x y = some pt) :
    0 ≤ pt.x ∧ 0 ≤ pt.y := by
  unfold mkPoint at h
  by_cases hc : x < 0 ∨ y < 0
  · rw [if_pos hc] at h
    exact Option.noConfusion h
  · rw [if_neg hc] at h
    push_neg at hc
    injection h with h2
    subst h2
    exact ⟨hc.1, hc.2⟩

/-- Every device call issued by the tap executor carries non-negative
coordinates, whatever the element search returns. -/
theorem executeTap_calls_nonneg (find : String → List UIElem → Option UIElem)
    (target : Option String) (p : Params) (ui : List UIElem) :
    ∀ c ∈ (executeTapModel find target p ui).calls, callNonneg c := by
  unfold executeTapModel
  split_ifs with h1 h2
  · rcases hm : mkPoint (p.x.getD 0) (p.y.getD 0) with _ | pt
    · simp [hm]
    · simp only [hm]
      intro c hc
      simp only [List.mem_singleton] at hc
      subst hc
      simpa [callNonneg] using mkPoint_nonneg _ _ pt hm
  · rcases hf : find (target.getD "") ui with _ | element
    · simp [hf]
    · simp only [hf]
      rcases hm : mkPoint element.center.1 element.center.2 with _ | pt
      · simp [hm]
      · simp only [hm]
        intro c hc
        simp only [List.mem_singleton] at hc
        subst hc
        simpa [callNonneg] using mkPoint_nonneg _ _ pt hm
  · intro c hc
    simp at hc

/-- Every device call issued by the swipe executor carries non-negative
coordinates. -/
theorem executeSwipe_calls_nonneg (p : Params) (w h : Int) :
    ∀ c ∈ (executeSwipeModel p w h).calls, callNonneg c := by
  unfold executeSwipeModel
  simp only []
  split
  · intro c hc; simp at hc
  · split
    · rename_i s e hs he
      intro c hc
      simp only [List.mem_singleton] at hc
      subst hc
      exact ⟨mkPoint_nonneg _ _ s hs, mkPoint_nonneg _ _ e he⟩
    · intro c hc; simp at hc

/-- Every device call issued by the input executor carries non-negative
coordinates (it issues none with coordinates). -/
theorem executeInput_calls_nonneg (p : Params) :
    ∀ c ∈ (executeInputModel p).calls, callNonneg c := by
  intro c hc
  unfold executeInputModel at hc
  simp only [] at hc
  split at hc <;> (try split at hc) <;>
    first
      | (subst hc; exact trivial)
      | (simp only [List.mem_singleton] at hc; subst hc; exact trivial)
      | simp at hc

/-- Every device call issued by the key-press executor carries non-negative
coordinates. -/
theorem executePressKey_calls_nonneg (p : Params) :
    ∀ c ∈ (executePressKeyModel p).calls, callNonneg c := by
  unfold executePressKeyModel
  intro c hc
  simp only [List.mem_singleton] at hc
  subst hc
  trivial

/-! ## Claim C3 -/

/-- Claim C3, counterexample: with the planner returning the fallback
(confidence 0) plan at step counter 0, the iteration continues with the
backoff taken and the ledger unchanged — but the step counter has already been
incremented to 1, whereas the claim requires it not to be incremented. -/
theorem C3_counterexample :
    iterBody "task" c3Env ⟨0, []⟩ = .cont ⟨1, []⟩ true ∧ (1 : Nat) ≠ 0 := by
  decide

/-- Claim C3 (amended): when the LLM call fails, the planner returns the no-op
fallback decision (no next step, task not complete, confidence 0); the
orchestrator, on a confidence-0 empty decision, takes the fixed backoff sleep
and retries the iteration without appending any CompletedStep — but the step
counter has already been incremented at the top of the iteration, so the
failed iteration still consumes step budget. -/
theorem C3_amended :
    (∀ msg, planNextStep (.error msg) = fallbackPlan) ∧
    fallbackPlan.confidence = 0 ∧ fallbackPlan.nextStep = none ∧
    fallbackPlan.taskComplete = false ∧
    (∀ task e st, e.plan.taskComplete = false → e.plan.getAllSteps = [] →
      e.plan.confidence = 0 →
      iterBody task e st = .cont ⟨st.stepCount + 1, st.ledger⟩ true) := by
  refine ⟨fun msg => rfl, rfl, rfl, rfl, ?_⟩
  intro task e st h1 h2 h3
  simp [iterBody, h1, h2, h3]

/-- Witness for C3_amended at the fallback environment with step counter 4. -/
theorem C3_amended_witness :
    planNextStep (.error "rate limited") = fallbackPlan ∧
    iterBody "task" c3Env ⟨4, []⟩ = .cont ⟨5, []⟩ true :=
  ⟨C3_amended.1 "rate limited",
   C3_amended.2.2.2.2 "task" c3Env ⟨4, []⟩ (by decide) (by decide) (by decide)⟩

/-! ## Claim C7 -/

/-- Claim C7: if the stop predicate is true when the loop re-enters (between
iterations), the loop halts immediately — before this iteration's snapshot
capture, of which the result is independent — returning a failed result whose
executed-step count is exactly the current ledger length, with the partial
ledger intact. -/
theorem C7_cancellation (task : String) (env : Nat → IterEnv) (maxSteps fuel : Nat)
    (st : LoopState) (h : (env st.stepCount).stop = true) :
    runFrom task env maxSteps (fuel + 1) st =
      { success := false, task := task, stepsExecuted := st.ledger.length,
        completedSteps := st.ledger, error := some "用户停止了任务",
        state := .failed } := by
  simp [runFrom, h, stoppedResult]

/-- Witness for C7 with the stop flag raised at the first iteration. -/
theorem C7_witness :
    runFrom "task" (fun _ => envStop) 5 5 ⟨0, []⟩ =
      { success := false, task := "task", stepsExecuted := 0,
        completedSteps := [], error := some "用户停止了任务",
        state := .failed } :=
  C7_cancellation "task" (fun _ => envStop) 5 4 ⟨0, []⟩ (by decide)

/-! ## Claim C9 -/

/-- Claim C9, counterexample: a click decision carrying both an explicit
coordinate (5, 6) and target index 1 is resolved through the index — the
element center (100, 200) overwrites the explicit coordinate, so the explicit
coordinate is not trusted when an index is present. -/
theorem C9_counterexample :
    (resolveStep [btnElem] tapBoth).params.x = some 100 ∧
    (resolveStep [btnElem] tapBoth).params.y = some 200 ∧
    tapBoth.params.x = some 5 ∧ tapBoth.params.y = some 6 ∧
    (resolveStep [btnElem] tapBoth).params.x ≠ tapBoth.params.x := by
  decide

/-- Claim C9 (amended): resolution consults the target index first: a tap or
click decision whose target index resolves in the planning snapshot (and whose
description does not trigger the name-mismatch re-match) has the element's
center written over any explicit coordinate in its parameters; a decision with
no target index passes through resolution unchanged, so only then is the
explicit coordinate used directly — and inside the action executor explicit
parameter coordinates do take precedence over free-text target matching. -/
theorem C9_amended :
    (∀ ui (s : NextStep) ti e, s.action = "tap" ∨ s.action = "click" →
      s.targetIndex = some ti → getElementByIndex ui ti = some e →
      extractTargetName s.description = none →
      resolveStep ui s =
        { s with params := { s.params with x := some e.center.1, y := some e.center.2 },
                 target := some (elemDisplayName e ti) }) ∧
    (∀ ui (s : NextStep), s.targetIndex = none → resolveStep ui s = s) ∧
    (∀ find target (p : Params) ui x y pt, p.x = some x → p.y = some y →
      mkPoint x y = some pt →
      executeTapModel find target p ui =
        { success := true, error := none, needsRecovery := false,
          calls := [.tap pt] }) := by
  refine ⟨?_, ?_, ?_⟩
  · intro ui s ti e hact hti he hdesc
    unfold resolveStep
    rw [hti]
    simp only [if_pos hact, he, hdesc]
  · intro ui s h
    unfold resolveStep
    rw [h]
  · intro find target p ui x y pt hx hy hmk
    unfold executeTapModel
    rw [if_pos ⟨by simp [hx], by simp [hy]⟩]
    have hgx : p.x.getD 0 = x := by rw [hx]; rfl
    have hgy : p.y.getD 0 = y := by rw [hy]; rfl
    rw [hgx, hgy, hmk]

/-- Witness for C9_amended at the button snapshot and an index-only click. -/
theorem C9_amended_witness :
    resolveStep [btnElem] { action := "click", targetIndex := some 1 } =
      { action := "click", targetIndex := some 1,
        params := { x := some 100, y := some 200 }, target := some "Btn" } ∧
    resolveStep [btnElem] { action := "click", params := { x := some 5, y := some 6 } } =
      { action := "click", params := { x := some 5, y := some 6 } } ∧
    executeTapModel (fun _ _ => none) none { x := some 5, y := some 6 } [] =
      { success := true, error := none, needsRecovery := false,
        calls := [.tap ⟨5, 6⟩] } := by
  refine ⟨?_, ?_, ?_⟩
  · have h := C9_amended.1 [btnElem] { action := "click", targetIndex := some 1 }
      1 btnElem (Or.inr rfl) rfl (by decide) (by decide)
    exact h.trans (by decide)
  · exact C9_amended.2.1 [btnElem] _ rfl
  · exact C9_amended.2.2 (fun _ _ => none) none { x := some 5, y := some 6 } []
      5 6 ⟨5, 6⟩ rfl rfl (by decide)

/-! ## Claim C10 -/

/-- Claim C10: every successfully constructed Point has non-negative
coordinates (a negative coordinate makes the constructor raise), every tap and
swipe the action executor issues to the device controller carries non-negative
coordinates, and a tap decision with a negative explicit coordinate fails
before any device call is made. -/
theorem C10_nonnegative_coordinates :
    (∀ x y pt, mkPoint x y = some pt → 0 ≤ pt.x ∧ 0 ≤ pt.y) ∧
    (∀ find action target (p : Params) w h ui,
      ∀ c ∈ (executeActionModel find action target p w h ui).calls, callNonneg c) ∧
    (∀ find target (p : Params) w h ui x y, p.x = some x → p.y = some y →
      x < 0 ∨ y < 0 →
      executeActionModel find "tap" target p w h ui =
        { success := false, error := some "Point coordinates must be non-negative",
          needsRecovery := false, calls := [] }) := by
  refine ⟨mkPoint_nonneg, ?_, ?_⟩
  · intro find action target p w h ui
    unfold executeActionModel
    split_ifs
    · exact executeTap_calls_nonneg find target p ui
    · exact executeSwipe_calls_nonneg p w h
    · exact executeInput_calls_nonneg p
    · intro c hc; simp at hc
    · exact executeSwipe_calls_nonneg _ w h
    · intro c hc
      simp only [List.mem_singleton] at hc
      subst hc; trivial
    · intro c hc
      simp only [List.mem_singleton] at hc
      subst hc; trivial
    · exact executePressKey_calls_nonneg p
    · intro c hc; simp at hc
  · intro find target p w h ui x y hx hy hneg
    unfold executeActionModel
    rw [if_pos (Or.inl rfl)]
    unfold executeTapModel
    rw [if_pos ⟨by simp [hx], by simp [hy]⟩]
    have hgx : p.x.getD 0 = x := by rw [hx]; rfl
    have hgy : p.y.getD 0 = y := by rw [hy]; rfl
    rw [hgx, hgy]
    unfold mkPoint
    rw [if_pos hneg]

/-- Witness for C10 at concrete points, a concrete swipe call and a negative
tap decision. -/
theorem C10_witness :
    (0 ≤ (3 : Int) ∧ 0 ≤ (4 : Int)) ∧
    callNonneg (.swipe ⟨540, 1344⟩ ⟨540, 576⟩ 500) ∧
    executeActionModel (fun _ _ => none) "tap" none { x := some (-1), y := some 2 }
        1080 1920 [] =
      { success := false, error := some "Point coordinates must be non-negative",
        needsRecovery := false, calls := [] } := by
  refine ⟨?_, ?_, ?_⟩
  · exact C10_nonnegative_coordinates.1 3 4 ⟨3, 4⟩ (by decide)
  · exact C10_nonnegative_coordinates.2.1 (fun _ _ => none) "scroll" none
      { direction := some "up" } 1080 1920 [] (.swipe ⟨540, 1344⟩ ⟨540, 576⟩ 500)
      (by decide)
  · exact C10_nonnegative_coordinates.2.2 (fun _ _ => none) none
      { x := some (-1), y := some 2 } 1080 1920 [] (-1) 2 rfl rfl (Or.inl (by decide))

/-! ## Ledger and loop lemmas -/

/-- Appending one record resets or extends the trailing-failure count. -/
theorem countCF_append_single (l : List CompletedStep) (cs : CompletedStep) :
    countConsecutiveFailures (l ++ [cs]) =
      if cs.success then 0 else countConsecutiveFailures l + 1 := by
  unfold countConsecutiveFailures
  rw [List.reverse_append]
  simp [failPrefixLen]

/-- A batch execution run extends the trailing-failure count by at most one:
the batch is interrupted by its first failure. -/
theorem execSteps_countCF_batch (results : Nat → Bool × Option String)
    (ui : List UIElem) (ub : List String) :
    ∀ (steps : List NextStep) (k : Nat) (old : List CompletedStep),
      countConsecutiveFailures (old ++ execSteps results ui ub true steps k) ≤
        countConsecutiveFailures old + 1 := by
  intro steps
  induction steps with
  | nil => intro k old; simp [execSteps]
  | cons st rest ih =>
    intro k old
    rw [execSteps]
    simp only []
    by_cases hr : (results k).1 = true
    · rw [if_neg (by simp [hr])]
      rw [← List.singleton_append, ← List.append_assoc]
      refine le_trans (ih (k + 1) _) ?_
      rw [countCF_append_single]
      simp only [hr, if_true]
      omega
    · have hr2 : (results k).1 = false := by simp_all
      rw [if_pos (by simp [hr2])]
      rw [countCF_append_single]
      simp only [hr2, Bool.false_eq_true, if_false]
      omega

/-- Executing at most one step extends the trailing-failure count by at most
one, batch or not. -/
theorem execSteps_countCF_short (results : Nat → Bool × Option String)
    (ui : List UIElem) (ub : List String) (isBatch : Bool)
    (steps : List NextStep) (hlen : steps.length ≤ 1) (k : Nat)
    (old : List CompletedStep) :
    countConsecutiveFailures (old ++ execSteps results ui ub isBatch steps k) ≤
      countConsecutiveFailures old + 1 := by
  cases steps with
  | nil => simp [execSteps]
  | cons st rest =>
    cases rest with
    | cons st2 rest2 => exfalso; simp at hlen
    | nil =>
      rw [execSteps]
      try simp only []
      by_cases hc : (¬(results k).1 = true ∧ isBatch = true)
      · rw [if_pos hc]
        rw [countCF_append_single]
        have hr2 : (results k).1 = false := by simp_all
        simp only [hr2, Bool.false_eq_true, if_false]
        omega
      · rw [if_neg hc]
        simp only [execSteps]
        rw [countCF_append_single]
        split <;> omega

/-- A non-batch decision yields at most one executed step. -/
theorem getAllSteps_short (p : PlanningResult) (h : p.hasBatchSteps = false) :
    p.getAllSteps.length ≤ 1 := by
  unfold PlanningResult.getAllSteps
  rw [h]
  simp only [Bool.false_eq_true, if_false]
  cases p.nextStep <;> simp

/-- Without a batch, the transformed step list of an iteration has at most one
entry. -/
theorem iterSteps_short (e : IterEnv) (L : List CompletedStep)
    (h : e.plan.hasBatchSteps = false) : (iterSteps e L).length ≤ 1 := by
  unfold iterSteps
  rw [h]
  simp only [Bool.false_eq_true, if_false, List.length_map]
  have h0 := getAllSteps_short e.plan h
  split
  · split
    · split
      · simp
      · exact h0
    · exact h0
  · exact h0

/-- The patch rewrites only the final record. -/
theorem patchLast_concat (init : List CompletedStep) (cs : CompletedStep)
    (ua : List String) (ch : Bool) :
    patchLast (init ++ [cs]) ua ch =
      init ++ [{ cs with uiAfter := ua, uiChanged := ch }] := by
  unfold patchLast
  rw [List.reverse_append]
  simp

/-- The patch preserves the trailing-failure count. -/
theorem patchLast_countCF (l : List CompletedStep) (ua : List String) (ch : Bool) :
    countConsecutiveFailures (patchLast l ua ch) = countConsecutiveFailures l := by
  rcases l.eq_nil_or_concat with h | ⟨init, cs, h⟩
  · subst h; rfl
  · subst h
    rw [List.concat_eq_append, patchLast_concat, countCF_append_single,
      countCF_append_single]

/-- The patch of an appended suffix leaves the prefix untouched. -/
theorem patchLast_append (a b : List CompletedStep) (hb : b ≠ [])
    (ua : List String) (ch : Bool) :
    patchLast (a ++ b) ua ch = a ++ patchLast b ua ch := by
  rcases b.eq_nil_or_concat with h | ⟨init, cs, h⟩
  · exact absurd h hb
  · subst h
    rw [List.concat_eq_append, ← List.append_assoc, patchLast_concat,
      patchLast_concat, List.append_assoc]

/-- The patch preserves the length of the ledger. -/
theorem patchLast_length (l : List CompletedStep) (ua : List String) (ch : Bool) :
    (patchLast l ua ch).length = l.length := by
  rcases l.eq_nil_or_concat with h | ⟨init, cs, h⟩
  · subst h; rfl
  · subst h
    rw [List.concat_eq_append, patchLast_concat]
    simp

/-- Every record of a patched ledger agrees with a record of the unpatched
one on action, parameters and success. -/
theorem patchLast_mem (l : List CompletedStep) (ua : List String) (ch : Bool) :
    ∀ cs2 ∈ patchLast l ua ch, ∃ cs ∈ l,
      cs2.action = cs.action ∧ cs2.parameters = cs.parameters ∧
        cs2.success = cs.success := by
  rcases l.eq_nil_or_concat with h | ⟨init, cs, h⟩
  · subst h; intro cs2 h2; simp [patchLast] at h2
  · subst h
    rw [List.concat_eq_append, patchLast_concat]
    intro cs2 h2
    rw [List.mem_append] at h2
    rcases h2 with h2 | h2
    · exact ⟨cs2, by simp [h2], rfl, rfl, rfl⟩
    · simp only [List.mem_singleton] at h2
      subst h2
      exact ⟨cs, by simp, rfl, rfl, rfl⟩

/-- The records appended by the execution loop take their action and
parameters from the resolved proposed steps. -/
theorem execSteps_mem (results : Nat → Bool × Option String) (ui : List UIElem)
    (ub : List String) (isBatch : Bool) :
    ∀ (steps : List NextStep) (k : Nat) cs,
      cs ∈ execSteps results ui ub isBatch steps k →
      ∃ s ∈ steps, cs.action = (resolveStep ui s).action ∧
        cs.parameters = (resolveStep ui s).params := by
  intro steps
  induction steps with
  | nil => intro k cs h; simp [execSteps] at h
  | cons st rest ih =>
    intro k cs h
    rw [execSteps] at h
    try simp only [] at h
    split at h
    · simp only [List.mem_singleton] at h
      subst h
      exact ⟨st, by simp, rfl, rfl⟩
    · rw [List.mem_cons] at h
      rcases h with h | h
      · subst h; exact ⟨st, by simp, rfl, rfl⟩
      · obtain ⟨s2, hs2, ha, hp⟩ := ih (k + 1) cs h
        exact ⟨s2, by simp [hs2], ha, hp⟩

/-- Resolution never changes the action of a step. -/
theorem resolveStep_action (ui : List UIElem) (s : NextStep) :
    (resolveStep ui s).action = s.action := by
  unfold resolveStep
  split <;> try rfl
  split <;> try rfl
  split <;> try rfl
  simp only []
  split <;> rfl

/-- Resolution leaves any step that is not a tap or click unchanged. -/
theorem resolveStep_other (ui : List UIElem) (s : NextStep)
    (h : ¬(s.action = "tap" ∨ s.action = "click")) : resolveStep ui s = s := by
  unfold resolveStep
  split
  · rw [if_neg h]
  · rfl

/-- The direction fix never changes the action of a step. -/
theorem fixScrollStep_action (L : List CompletedStep) (s : NextStep) :
    (fixScrollStep L s).action = s.action := by
  unfold fixScrollStep
  split <;> try rfl
  split <;> try rfl
  split <;> rfl

/-- When the stuck detector fires with a non-empty direction, every proposed
scroll step leaves the fix with exactly that direction. -/
theorem fixScrollStep_scroll (L : List CompletedStep) (s : NextStep) (rd : String)
    (hL : checkScrollStuck L = some rd) (hs : s.action = "scroll")
    (hrd : rd ≠ "") :
    (fixScrollStep L s).params.direction = some rd := by
  unfold fixScrollStep
  rw [if_pos hs, hL]
  show (if s.params.direction.getD "" ≠ rd then
      { s with params := { s.params with direction := some rd } }
    else s).params.direction = some rd
  by_cases hd : s.params.direction.getD "" ≠ rd
  · rw [if_pos hd]
  · rw [if_neg hd]
    push_neg at hd
    cases hdir : s.params.direction with
    | none =>
      rw [hdir] at hd
      simp only [Option.getD_none] at hd
      exact absurd hd.symm hrd
    | some v =>
      rw [hdir] at hd
      simp only [Option.getD_some] at hd
      rw [hd]

/-- The stuck detector fires when the two most recent ledger records are
successful same-direction scrolls that left the UI unchanged. -/
theorem checkScrollStuck_fires (L : List CompletedStep) (sa sb : CompletedStep)
    (rest : List CompletedStep) (d : String)
    (hL : L.reverse = sb :: sa :: rest)
    (ha1 : sa.action = "scroll") (ha2 : sa.success = true) (ha3 : sa.uiChanged = false)
    (ha4 : sa.parameters.direction.getD "" = d)
    (hb1 : sb.action = "scroll") (hb2 : sb.success = true) (hb3 : sb.uiChanged = false)
    (hb4 : sb.parameters.direction.getD "" = d) :
    checkScrollStuck L = some (getOppositeDirection d) := by
  have hlen : ¬(L.length < 2) := by
    have h2 : L.reverse.length = rest.length + 2 := by rw [hL]; simp
    rw [List.length_reverse] at h2
    omega
  unfold checkScrollStuck
  rw [if_neg hlen, hL]
  simp [ha1, ha2, ha3, hb1, hb2, hb3, ha4, hb4]

/-- The iteration returns the success result when the planner signals
completion. -/
theorem iterBody_complete (task : String) (e : IterEnv) (st : LoopState)
    (h : e.plan.taskComplete = true) :
    iterBody task e st = .ret (successResult task st.ledger) := by
  unfold iterBody
  rw [if_pos h]

/-- The iteration continues without touching the ledger when the planner
returns no steps; the backoff is taken exactly on confidence 0. -/
theorem iterBody_empty (task : String) (e : IterEnv) (st : LoopState)
    (h1 : e.plan.taskComplete = false) (h2 : e.plan.getAllSteps = []) :
    iterBody task e st =
      if e.plan.confidence = 0 then .cont ⟨st.stepCount + 1, st.ledger⟩ true
      else .cont ⟨st.stepCount + 1, st.ledger⟩ false := by
  unfold iterBody
  rw [h1]
  rw [if_neg (by simp)]
  rw [if_pos (by simp [h2])]

/-- The main execution path of the iteration, expressed through the patched
ledger. -/
theorem iterBody_main (task : String) (e : IterEnv) (st : LoopState)
    (h1 : e.plan.taskComplete = false) (h2 : ¬e.plan.getAllSteps = []) :
    iterBody task e st =
      if 3 ≤ countConsecutiveFailures (iterLedger2 e st) then
        .ret (failStreakResult task (iterLedger2 e st))
      else .cont ⟨st.stepCount + 1, iterLedger2 e st⟩ false := by
  unfold iterBody iterLedger2
  rw [h1]
  rw [if_neg (by simp)]
  rw [if_neg (by simp [List.isEmpty_iff, h2])]

/-- The trailing-failure count after one iteration: it stays at most 2 on a
continue, and a return either keeps it at most 2 or is the failure-streak
return with exactly 3 trailing failures and the streak error message. -/
theorem iterBody_cf (task : String) (e : IterEnv) (st : LoopState)
    (hinv : countConsecutiveFailures st.ledger ≤ 2) :
    (match iterBody task e st with
     | .ret r => countConsecutiveFailures r.completedSteps ≤ 2 ∨
         (countConsecutiveFailures r.completedSteps = 3 ∧ r.success = false ∧
          r.error = some (failStreakMsg r.completedSteps))
     | .cont st2 _ => countConsecutiveFailures st2.ledger ≤ 2) := by
  by_cases h1 : e.plan.taskComplete = true
  · rw [iterBody_complete task e st h1]
    exact Or.inl hinv
  · have h1f : e.plan.taskComplete = false := by simp_all
    by_cases h2 : e.plan.getAllSteps = []
    · rw [iterBody_empty task e st h1f h2]
      by_cases hc : e.plan.confidence = 0
      · rw [if_pos hc]; exact hinv
      · rw [if_neg hc]; exact hinv
    · rw [iterBody_main task e st h1f h2]
      have hb : countConsecutiveFailures (iterLedger2 e st) ≤ 3 := by
        unfold iterLedger2
        rw [patchLast_countCF]
        unfold iterAppended
        by_cases hbb : e.plan.hasBatchSteps = true
        · rw [hbb]
          refine le_trans (execSteps_countCF_batch _ _ _ _ 0 st.ledger) ?_
          omega
        · have hbf : e.plan.hasBatchSteps = false := by simp_all
          rw [hbf]
          refine le_trans
            (execSteps_countCF_short _ _ _ false _ (iterSteps_short e st.ledger hbf) 0
              st.ledger) ?_
          omega
      by_cases h3 : 3 ≤ countConsecutiveFailures (iterLedger2 e st)
      · rw [if_pos h3]
        exact Or.inr ⟨Nat.le_antisymm hb h3, rfl, rfl⟩
      · rw [if_neg h3]
        show countConsecutiveFailures (iterLedger2 e st) ≤ 2
        omega

/-- The whole loop keeps the trailing-failure count at most 2, except for the
failure-streak return. -/
theorem runFrom_cf (task : String) (env : Nat → IterEnv) (maxSteps : Nat) :
    ∀ (fuel : Nat) (st : LoopState), countConsecutiveFailures st.ledger ≤ 2 →
      countConsecutiveFailures (runFrom task env maxSteps fuel st).completedSteps ≤ 2 ∨
      (countConsecutiveFailures (runFrom task env maxSteps fuel st).completedSteps = 3 ∧
       (runFrom task env maxSteps fuel st).success = false ∧
       (runFrom task env maxSteps fuel st).error =
         some (failStreakMsg (runFrom task env maxSteps fuel st).completedSteps)) := by
  intro fuel
  induction fuel with
  | zero => intro st h; exact Or.inl h
  | succ n ih =>
    intro st h
    rw [runFrom]
    try simp only []
    by_cases hstop : (env st.stepCount).stop = true
    · rw [if_pos hstop]
      exact Or.inl h
    · rw [if_neg hstop]
      have hcase := iterBody_cf task (env st.stepCount) st h
      cases hout : iterBody task (env st.stepCount) st with
      | ret r =>
        rw [hout] at hcase
        exact hcase
      | cont st2 b =>
        rw [hout] at hcase
        exact ih st2 hcase

/-- Three trailing failed records force a trailing-failure count of at least 3. -/
theorem countCF_last3 (L : List CompletedStep) (s1 s2 s3 : CompletedStep)
    (rest : List CompletedStep) (hL : L.reverse = s3 :: s2 :: s1 :: rest)
    (h1 : s1.success = false) (h2 : s2.success = false) (h3 : s3.success = false) :
    3 ≤ countConsecutiveFailures L := by
  unfold countConsecutiveFailures
  rw [hL]
  simp [failPrefixLen, h1, h2, h3]

/-- With the ledger ending in three failed records, the collected failure
reasons are exactly those of the three records, in execution order. -/
theorem getFailureReasons_last3 (L : List CompletedStep) (s1 s2 s3 : CompletedStep)
    (rest : List CompletedStep) (hL : L.reverse = s3 :: s2 :: s1 :: rest)
    (h1 : s1.success = false) (h2 : s2.success = false) (h3 : s3.success = false) :
    getFailureReasons L 3 = joinSemicolon [reasonStr s1, reasonStr s2, reasonStr s3] := by
  unfold getFailureReasons
  rw [hL]
  simp [collectFailures, h1, h2, h3, joinSemicolon]

/-- The failure-streak message at count 3 starts with the literal prefix. -/
theorem failStreakMsg_three (L : List CompletedStep)
    (hcf : countConsecutiveFailures L = 3) :
    failStreakMsg L = "连续3次操作失败，任务终止。失败原因: " ++ getFailureReasons L 3 := by
  unfold failStreakMsg
  rw [hcf]
  have hpre : ("连续" ++ toString (3 : Nat) ++ "次操作失败，任务终止。失败原因: ") =
      "连续3次操作失败，任务终止。失败原因: " := by decide
  rw [← hpre]

/-! ## Claim C4 -/

/-- Claim C4: every task run whose final ledger ends with 3 consecutive failed
steps terminates as Failed, and the error message carries the failure reasons
of those 3 steps in their original execution order. -/
theorem C4_failure_streak (task : String) (env : Nat → IterEnv) (maxSteps : Nat)
    (s1 s2 s3 : CompletedStep) (rest : List CompletedStep)
    (hrev : (execTask task env maxSteps).completedSteps.reverse = s3 :: s2 :: s1 :: rest)
    (h1 : s1.success = false) (h2 : s2.success = false) (h3 : s3.success = false) :
    (execTask task env maxSteps).success = false ∧
    (execTask task env maxSteps).error =
      some ("连续3次操作失败，任务终止。失败原因: " ++
        joinSemicolon [reasonStr s1, reasonStr s2, reasonStr s3]) := by
  have hrun := runFrom_cf task env maxSteps maxSteps ⟨0, []⟩ (by
    simp [countConsecutiveFailures, failPrefixLen])
  have hexec : execTask task env maxSteps = runFrom task env maxSteps maxSteps ⟨0, []⟩ := rfl
  rw [← hexec] at hrun
  have hge : 3 ≤ countConsecutiveFailures (execTask task env maxSteps).completedSteps :=
    countCF_last3 _ s1 s2 s3 rest hrev h1 h2 h3
  rcases hrun with hle | ⟨hcf3, hsucc, herr⟩
  · omega
  · refine ⟨hsucc, ?_⟩
    rw [herr, failStreakMsg_three _ hcf3,
      getFailureReasons_last3 _ s1 s2 s3 rest hrev h1 h2 h3]

/-- Witness for C4: three failing `wait` iterations terminate the run with the
three "boom" reasons in order. -/
theorem C4_witness :
    (execTask "t" (fun _ => envFail) 10).success = false ∧
    (execTask "t" (fun _ => envFail) 10).error =
      some ("连续3次操作失败，任务终止。失败原因: " ++
        joinSemicolon [reasonStr csBoom, reasonStr csBoom, reasonStr csBoom]) :=
  C4_failure_streak "t" (fun _ => envFail) 10 csBoom csBoom csBoom []
    (by decide) (by decide) (by decide) (by decide)

/-! ## Claim C5 -/

/-- Claim C5: when the two most recent ledger records are successful scrolls
in the same direction and neither changed the UI, every scroll record the
iteration appends carries the opposite direction, overriding whatever the
planner proposed. -/
theorem C5_scroll_stuck (task : String) (e : IterEnv) (st : LoopState)
    (sa sb : CompletedStep) (rest : List CompletedStep) (d : String)
    (hrev : st.ledger.reverse = sb :: sa :: rest)
    (ha1 : sa.action = "scroll") (ha2 : sa.success = true) (ha3 : sa.uiChanged = false)
    (ha4 : sa.parameters.direction.getD "" = d)
    (hb1 : sb.action = "scroll") (hb2 : sb.success = true) (hb3 : sb.uiChanged = false)
    (hb4 : sb.parameters.direction.getD "" = d)
    (hd4 : d = "up" ∨ d = "down" ∨ d = "left" ∨ d = "right") :
    ∀ cs ∈ (ledgerAfter (iterBody task e st)).drop st.ledger.length,
      cs.action = "scroll" →
        cs.parameters.direction = some (getOppositeDirection d) := by
  intro cs hcs hact
  have hstuck : checkScrollStuck st.ledger = some (getOppositeDirection d) :=
    checkScrollStuck_fires st.ledger sa sb rest d hrev ha1 ha2 ha3 ha4 hb1 hb2 hb3 hb4
  have hrd : getOppositeDirection d ≠ "" := by
    rcases hd4 with h | h | h | h <;> subst h <;> decide
  by_cases h1 : e.plan.taskComplete = true
  · rw [iterBody_complete task e st h1] at hcs
    simp [ledgerAfter, successResult, List.drop_length] at hcs
  · have h1f : e.plan.taskComplete = false := by simp_all
    by_cases h2 : e.plan.getAllSteps = []
    · rw [iterBody_empty task e st h1f h2] at hcs
      split at hcs <;> simp [ledgerAfter, List.drop_length] at hcs
    · rw [iterBody_main task e st h1f h2] at hcs
      have hcs2 : cs ∈ (iterLedger2 e st).drop st.ledger.length := by
        split at hcs
        · simpa [ledgerAfter] using hcs
        · simpa [ledgerAfter] using hcs
      by_cases happ : iterAppended e st = []
      · exfalso
        unfold iterLedger2 at hcs2
        rw [happ, List.append_nil] at hcs2
        rw [List.drop_eq_nil_of_le (le_of_eq (patchLast_length _ _ _))] at hcs2
        simp at hcs2
      · unfold iterLedger2 at hcs2
        rw [patchLast_append st.ledger (iterAppended e st) happ, List.drop_left] at hcs2
        obtain ⟨cs0, hcs0, hact0, hparams0, _⟩ := patchLast_mem _ _ _ cs hcs2
        obtain ⟨sres, hsmem, hsa, hsp⟩ :=
          execSteps_mem e.execResults e.uiElems (getAllElements e.uiElems)
            e.plan.hasBatchSteps (iterSteps e st.ledger) 0 cs0 hcs0
        unfold iterSteps at hsmem
        rw [List.mem_map] at hsmem
        obtain ⟨x, hx, hfx⟩ := hsmem
        have hsact : sres.action = "scroll" := by
          rw [← resolveStep_action e.uiElems sres, ← hsa, ← hact0]
          exact hact
        have hxact : x.action = "scroll" := by
          rw [← hfx] at hsact
          rw [fixScrollStep_action] at hsact
          exact hsact
        have hdirx : sres.params.direction = some (getOppositeDirection d) := by
          rw [← hfx]
          exact fixScrollStep_scroll st.ledger x (getOppositeDirection d) hstuck hxact hrd
        have hres : resolveStep e.uiElems sres = sres := by
          apply resolveStep_other
          rw [hsact]
          decide
        rw [hparams0, hsp, hres, hdirx]

/-- Witness for C5: after two unchanged up-scrolls, the appended scroll record
carries direction "down". -/
theorem C5_witness :
    csScrollDown.parameters.direction = some "down" :=
  C5_scroll_stuck "t" envScroll ⟨2, [stuckStep, stuckStep]⟩ stuckStep stuckStep [] "up"
    (by decide) (by decide) (by decide) (by decide) (by decide)
    (by decide) (by decide) (by decide) (by decide) (Or.inl rfl)
    csScrollDown (by decide) (by decide)

/-! ## Conversion lemmas and Claim C6 -/

/-- Resolution leaves a step with no target index unchanged. -/
theorem resolveStep_none (ui : List UIElem) (s : NextStep)
    (h : s.targetIndex = none) : resolveStep ui s = s := by
  unfold resolveStep
  rw [h]

/-- The direction fix leaves non-scroll steps unchanged. -/
theorem fixScrollStep_nonscroll (L : List CompletedStep) (s : NextStep)
    (h : ¬s.action = "scroll") : fixScrollStep L s = s := by
  unfold fixScrollStep
  rw [if_neg h]

/-- A synthesized input step never passes the strict digit-click test. -/
theorem isDigitClicks_input (t : String) : isDigitClicks [mkInputStep t] = false := by
  simp [isDigitClicks, mkInputStep]

/-- A filter that keeps exactly one element finds that element first. -/
theorem filter_single_find (p : Char → Bool) :
    ∀ (l : List Char) (a : Char), l.filter p = [a] → l.find? p = some a := by
  intro l
  induction l with
  | nil => intro a h; simp at h
  | cons x xs ih =>
    intro a h
    by_cases hp : p x = true
    · rw [List.filter_cons_of_pos hp] at h
      injection h with h1 h2
      subst h1
      rw [List.find?_cons_of_pos _ hp]
    · have hp2 : p x = false := by simp_all
      rw [List.filter_cons_of_neg (by simp [hp2])] at h
      rw [List.find?_cons_of_neg _ (by simp [hp2])]
      exact ih a h

/-- Single-digit proposals pass the conversion test and extract exactly their
digits, in order. -/
theorem digitSteps_facts :
    ∀ (steps : List NextStep) (ds : List Char), List.Forall₂ digitStepRel steps ds →
      (steps.all (fun s => (s.action = "click" || s.action = "tap") &&
        s.description.data.any isConvertChar) = true) ∧
      steps.filterMap (fun s => s.description.data.find? isExtractChar) = ds := by
  intro steps
  induction steps with
  | nil =>
    intro ds h
    cases h
    exact ⟨rfl, rfl⟩
  | cons s rest ih =>
    intro ds h
    cases h with
    | cons hrel htail =>
      rename_i c ds2
      obtain ⟨hact, hfilter, hdig, _, _⟩ := hrel
      obtain ⟨ihall, ihmap⟩ := ih ds2 htail
      have hfind : s.description.data.find? isExtractChar = some c :=
        filter_single_find isExtractChar s.description.data c hfilter
      have hmem : c ∈ s.description.data ∧ isExtractChar c = true := by
        have hc : c ∈ s.description.data.filter isExtractChar := by
          rw [hfilter]; simp
        rw [List.mem_filter] at hc
        exact hc
      constructor
      · rw [List.all_cons, Bool.and_eq_true, Bool.and_eq_true]
        refine ⟨⟨?_, ?_⟩, ihall⟩
        · rcases hact with h | h <;> simp [h]
        · rw [List.any_eq_true]
          refine ⟨c, hmem.1, ?_⟩
          have := hmem.2
          unfold isExtractChar at this
          unfold isConvertChar
          rcases Bool.or_eq_true_iff.mp this with h | h <;> simp [h]
      · rw [List.filterMap_cons]
        rw [hfind, ihmap]

/-- Claim C6: a batch of single-digit tap/click proposals, against a snapshot
holding a text-input-class element and with no element-index phrasing in the
descriptions, is replaced by exactly one text-input record whose text is the
digits concatenated in the batch's original order. -/
theorem C6_digit_batch (task : String) (e : IterEnv) (st : LoopState)
    (steps : List NextStep) (ds : List Char)
    (hcomplete : e.plan.taskComplete = false)
    (hplan : e.plan.nextSteps = some steps)
    (hne : steps ≠ [])
    (hdigits : List.Forall₂ digitStepRel steps ds)
    (hinput : ∃ el ∈ e.uiElems, containsSub "edittext" (effClass el) = true ∨
      containsSub "input" (effClass el) = true) :
    ∃ cs, (ledgerAfter (iterBody task e st)).drop st.ledger.length = [cs] ∧
      cs.action = "input" ∧ cs.parameters.text = some (String.mk ds) := by
  have hbatch : e.plan.hasBatchSteps = true := by
    unfold PlanningResult.hasBatchSteps
    rw [hplan]
    simp [List.length_pos, hne]
  have hget : e.plan.getAllSteps = steps := by
    unfold PlanningResult.getAllSteps
    rw [hbatch, hplan]
    simp
  obtain ⟨hall, hmap⟩ := digitSteps_facts steps ds hdigits
  have hconv : shouldConvertClicksToInput steps e.uiElems = true := by
    unfold shouldConvertClicksToInput
    rw [Bool.and_eq_true]
    refine ⟨hall, ?_⟩
    rw [List.any_eq_true]
    obtain ⟨el, hel, hcl⟩ := hinput
    refine ⟨el, hel, ?_⟩
    rcases hcl with h | h <;> simp [h]
  have hextract : extractDigitsFromClicks steps = String.mk ds := by
    unfold extractDigitsFromClicks
    rw [hmap]
  have hds : ds ≠ [] := by
    intro hd
    apply hne
    have := hdigits.length_eq
    rw [hd] at this
    exact List.eq_nil_of_length_eq_zero this
  have htne : String.mk ds ≠ "" := by
    intro hmk
    apply hds
    have := congrArg String.data hmk
    simpa using this
  have hsteps1 : iterSteps e st.ledger = [mkInputStep (String.mk ds)] := by
    unfold iterSteps
    simp only []
    rw [hget, hbatch]
    simp only [eq_self_iff_true, if_true]
    rw [if_pos hconv, hextract, if_pos htne]
    have hfix : fixScrollStep st.ledger (mkInputStep (String.mk ds)) =
        mkInputStep (String.mk ds) :=
      fixScrollStep_nonscroll _ _ (by simp [mkInputStep])
    by_cases hlast : lastStepClickedInput st.ledger = true
    · rw [if_pos hlast, if_neg (by simp [isDigitClicks_input])]
      rw [List.map_cons, List.map_nil, hfix]
    · rw [if_neg hlast]
      rw [List.map_cons, List.map_nil, hfix]
  have happ : ∃ csx, iterAppended e st = [csx] ∧ csx.action = "input" ∧
      csx.parameters = { text := some (String.mk ds) } := by
    unfold iterAppended
    rw [hsteps1, hbatch]
    rw [execSteps]
    try simp only []
    rw [resolveStep_none e.uiElems (mkInputStep (String.mk ds)) rfl]
    by_cases hrr : (¬(e.execResults 0).1 = true ∧ True)
    · rw [if_pos hrr]
      exact ⟨_, rfl, rfl, rfl⟩
    · rw [if_neg hrr]
      simp only [execSteps]
      exact ⟨_, rfl, rfl, rfl⟩
  obtain ⟨csx, happx, hax, hpx⟩ := happ
  have hne2 : iterAppended e st ≠ [] := by rw [happx]; simp
  have hmain : ∃ cs, (iterLedger2 e st).drop st.ledger.length = [cs] ∧
      cs.action = "input" ∧ cs.parameters.text = some (String.mk ds) := by
    refine ⟨{ csx with
        uiAfter := (getAllElements e.uiAfterElems).take 20,
        uiChanged := !setEqv (getAllElements e.uiElems) (getAllElements e.uiAfterElems) },
      ?_, ?_, ?_⟩
    · unfold iterLedger2
      rw [patchLast_append st.ledger _ hne2, List.drop_left, happx]
      have hp1 := patchLast_concat [] csx
        ((getAllElements e.uiAfterElems).take 20)
        (!setEqv (getAllElements e.uiElems) (getAllElements e.uiAfterElems))
      simpa using hp1
    · exact hax
    · show csx.parameters.text = some (String.mk ds)
      rw [hpx]
  have h2 : ¬e.plan.getAllSteps = [] := by rw [hget]; exact hne
  rw [iterBody_main task e st hcomplete h2]
  by_cases h3 : 3 ≤ countConsecutiveFailures (iterLedger2 e st)
  · rw [if_pos h3]
    exact hmain
  · rw [if_neg h3]
    exact hmain

/-- Witness for C6: a batch of clicks on digits 1 and 2 against a snapshot
with an EditText element collapses to one input record with text "12". -/
theorem C6_witness :
    ∃ cs, (ledgerAfter (iterBody "t" envDigits ⟨0, []⟩)).drop 0 = [cs] ∧
      cs.action = "input" ∧ cs.parameters.text = some (String.mk ['1', '2']) :=
  C6_digit_batch "t" envDigits ⟨0, []⟩ [digitStep "1", digitStep "2"] ['1', '2']
    (by decide) (by decide) (by decide)
    (.cons ⟨Or.inl rfl, by decide, by decide, by decide, by decide⟩
      (.cons ⟨Or.inl rfl, by decide, by decide, by decide, by decide⟩ .nil))
    (by decide)

/-! ## Trace lemmas and Claim C8 -/

/-- The iteration trace is empty when the planner signals completion. -/
theorem iterTrace_eq_complete (e : IterEnv) (st : LoopState)
    (h : e.plan.taskComplete = true) : iterTrace e st = [] := by
  unfold iterTrace
  rw [if_pos h]

/-- The iteration trace is empty when the planner returns no steps. -/
theorem iterTrace_eq_empty (e : IterEnv) (st : LoopState)
    (h1 : e.plan.taskComplete = false) (h2 : e.plan.getAllSteps = []) :
    iterTrace e st = [] := by
  unfold iterTrace
  rw [h1]
  rw [if_neg (by simp)]
  rw [if_pos (by simp [h2])]

/-- The iteration trace on the main path: the append states followed by the
patched ledger. -/
theorem iterTrace_eq_main (e : IterEnv) (st : LoopState)
    (h1 : e.plan.taskComplete = false) (h2 : ¬e.plan.getAllSteps = []) :
    iterTrace e st =
      appendStates st.ledger (iterAppended e st) ++ [iterLedger2 e st] := by
  unfold iterTrace iterLedger2
  rw [h1]
  rw [if_neg (by simp)]
  rw [if_neg (by simp [List.isEmpty_iff, h2])]

/-- The execution loop appends at least one record for a non-empty step list. -/
theorem execSteps_ne_nil (results : Nat → Bool × Option String) (ui : List UIElem)
    (ub : List String) (isBatch : Bool) (s : NextStep) (rest : List NextStep) (k : Nat) :
    execSteps results ui ub isBatch (s :: rest) k ≠ [] := by
  rw [execSteps]
  try simp only []
  split <;> simp

/-- The transformed step list of an iteration with a non-empty decision is
non-empty. -/
theorem iterSteps_ne_nil (e : IterEnv) (L : List CompletedStep)
    (h : e.plan.getAllSteps ≠ []) : iterSteps e L ≠ [] := by
  unfold iterSteps
  simp only []
  rw [Ne, List.map_eq_nil]
  repeat' split
  all_goals simp_all [mkInputStep]

/-- The append-state sequence is a chain of single-record appends ending at
the fully appended ledger. -/
theorem appendStates_spec (base : List CompletedStep) :
    ∀ app : List CompletedStep,
      List.Chain' ledgerStepRel (base :: appendStates base app) ∧
        (base :: appendStates base app).getLast? = some (base ++ app) := by
  intro app
  induction app generalizing base with
  | nil => exact ⟨List.chain'_singleton _, by simp [appendStates]⟩
  | cons cs rest ih =>
    obtain ⟨ihc, ihl⟩ := ih (base ++ [cs])
    constructor
    · rw [appendStates, List.chain'_cons]
      exact ⟨Or.inl ⟨cs, rfl⟩, ihc⟩
    · rw [appendStates, List.getLast?_cons_cons]
      rw [ihl]
      simp

/-- The ledger states of one iteration form a chain from the incoming ledger
to the iteration's outgoing ledger. -/
theorem iterTrace_spec (task : String) (e : IterEnv) (st : LoopState) :
    List.Chain' ledgerStepRel (st.ledger :: iterTrace e st) ∧
      (st.ledger :: iterTrace e st).getLast? = some (ledgerAfter (iterBody task e st)) := by
  by_cases h1 : e.plan.taskComplete = true
  · rw [iterTrace_eq_complete e st h1, iterBody_complete task e st h1]
    exact ⟨List.chain'_singleton _, by simp [ledgerAfter, successResult]⟩
  · have h1f : e.plan.taskComplete = false := by simp_all
    by_cases h2 : e.plan.getAllSteps = []
    · rw [iterTrace_eq_empty e st h1f h2, iterBody_empty task e st h1f h2]
      refine ⟨List.chain'_singleton _, ?_⟩
      by_cases hc : e.plan.confidence = 0
      · rw [if_pos hc]; simp [ledgerAfter]
      · rw [if_neg hc]; simp [ledgerAfter]
    · rw [iterTrace_eq_main e st h1f h2, iterBody_main task e st h1f h2]
      have happne : iterAppended e st ≠ [] := by
        unfold iterAppended
        cases hsteps : iterSteps e st.ledger with
        | nil => exact absurd hsteps (iterSteps_ne_nil e st.ledger h2)
        | cons a rest => exact execSteps_ne_nil _ _ _ _ a rest 0
      obtain ⟨hch, hlastA⟩ := appendStates_spec st.ledger (iterAppended e st)
      constructor
      · rw [show st.ledger ::
            (appendStates st.ledger (iterAppended e st) ++ [iterLedger2 e st]) =
            (st.ledger :: appendStates st.ledger (iterAppended e st)) ++
              [iterLedger2 e st] from rfl]
        rw [List.chain'_append]
        refine ⟨hch, List.chain'_singleton _, ?_⟩
        intro x hx y hy
        rw [hlastA] at hx
        simp only [Option.mem_def, Option.some.injEq] at hx
        simp only [List.head?_cons, Option.mem_def, Option.some.injEq] at hy
        subst hx
        subst hy
        right
        rcases (st.ledger ++ iterAppended e st).eq_nil_or_concat with hnil | ⟨init, cs, hconcat⟩
        · exfalso
          rw [List.append_eq_nil] at hnil
          exact happne hnil.2
        · rw [List.concat_eq_append] at hconcat
          refine ⟨init, cs, (getAllElements e.uiAfterElems).take 20,
            !setEqv (getAllElements e.uiElems) (getAllElements e.uiAfterElems),
            hconcat, ?_⟩
          unfold iterLedger2
          rw [hconcat, patchLast_concat]
      · have hl : (st.ledger ::
            (appendStates st.ledger (iterAppended e st) ++ [iterLedger2 e st])).getLast? =
            some (iterLedger2 e st) := by
          rw [show st.ledger ::
              (appendStates st.ledger (iterAppended e st) ++ [iterLedger2 e st]) =
              (st.ledger :: appendStates st.ledger (iterAppended e st)) ++
                [iterLedger2 e st] from rfl]
          exact List.getLast?_concat _
        rw [hl]
        by_cases h3 : 3 ≤ countConsecutiveFailures (iterLedger2 e st)
        · rw [if_pos h3]; rfl
        · rw [if_neg h3]; rfl

/-- The ledger states of a whole run form a chain under the append-or-patch
relation. -/
theorem runFromTrace_chain (task : String) (env : Nat → IterEnv) :
    ∀ (fuel : Nat) (st : LoopState),
      List.Chain' ledgerStepRel (st.ledger :: runFromTrace task env fuel st) := by
  intro fuel
  induction fuel with
  | zero => intro st; exact List.chain'_singleton _
  | succ n ih =>
    intro st
    rw [runFromTrace]
    try simp only []
    by_cases hstop : (env st.stepCount).stop = true
    · rw [if_pos hstop]
      exact List.chain'_singleton _
    · rw [if_neg hstop]
      obtain ⟨hch, hlast⟩ := iterTrace_spec task (env st.stepCount) st
      cases hout : iterBody task (env st.stepCount) st with
      | ret r =>
        show List.Chain' ledgerStepRel (st.ledger :: (iterTrace (env st.stepCount) st ++ []))
        simpa using hch
      | cont st2 b =>
        show List.Chain' ledgerStepRel
          ((st.ledger :: iterTrace (env st.stepCount) st) ++ runFromTrace task env n st2)
        rw [List.chain'_append]
        have hih := ih st2
        rw [List.chain'_cons'] at hih
        refine ⟨hch, hih.2, ?_⟩
        intro x hx y hy
        rw [hout] at hlast
        rw [hlast] at hx
        simp only [Option.mem_def, Option.some.injEq] at hx
        subst hx
        exact hih.1 y hy

/-- Claim C8, counterexample: after a successful `wait` step whose post-batch
capture shows a changed UI, the ledger's most recent record is rewritten in
place — the state after the append and the state after the patch hold
different records at the same position, so an appended CompletedStep is
mutated afterwards. -/
theorem C8_counterexample :
    iterTrace envPatch ⟨0, []⟩ = [[csWaitPre], [csWaitPost]] ∧ csWaitPre ≠ csWaitPost := by
  decide

/-- Claim C8 (amended): throughout a task run, the ledger evolves only by
appending one record at the end or by rewriting the `ui_after`/`ui_changed`
fields of the most recently appended record once, immediately after the
iteration's post-execution capture; records other than the most recent are
never mutated, reordered or deleted. -/
theorem C8_amended (task : String) (env : Nat → IterEnv) (maxSteps : Nat) :
    List.Chain' ledgerStepRel ([] :: runFromTrace task env maxSteps ⟨0, []⟩) :=
  runFromTrace_chain task env maxSteps ⟨0, []⟩

end MobAI
